import Mathlib

/-!
Verification development for the Apple-Health-DS repository
(`src/glucose_processor.py`, `src/data_merger.py`, `src/data_parser.py`).

The Python code operates on pandas DataFrames.  The embedding below models a
DataFrame as a list of rows (structures) plus, where the code's behaviour
depends on column *presence*, explicit boolean column flags.  Floating-point
glucose values are modelled as rationals (`ℚ`), timestamps as integer seconds
since the Unix epoch (`Int`), and pandas `NaN` / `NaT` cells as `Option`.
Pandas comparison semantics are kept: any comparison against a missing value
(`NaN`) is false.
-/

/-! ## Glucose trend classification (`glucose_processor.py`, lines 182-187)

The code initialises `glucose_trend` to `"stable"` and then overwrites it with
four successive `.loc` masks.  `Series.between(lo, hi)` is inclusive on both
ends, and a mask applied to a `NaN` rate is false.  Note that the code writes
`between(-1, -2)`, i.e. `rate ≥ -1 ∧ rate ≤ -2`, exactly as in the source. -/

/-- Pandas `x > c` where `x` may be `NaN` (`none`): false on `NaN`. -/
def optGt (x : Option ℚ) (c : ℚ) : Bool :=
  match x with
  | some v => c < v
  | none => false

/-- Pandas `x < c` where `x` may be `NaN` (`none`): false on `NaN`. -/
def optLt (x : Option ℚ) (c : ℚ) : Bool :=
  match x with
  | some v => v < c
  | none => false

/-- Pandas `x.between(lo, hi)` (inclusive both ends): false on `NaN`. -/
def optBetween (x : Option ℚ) (lo hi : ℚ) : Bool :=
  match x with
  | some v => lo ≤ v && v ≤ hi
  | none => false

/-- The `.loc` overwrite chain of lines 182-187 of `glucose_processor.py`,
applied elementwise to one `glucose_rate_change` cell. -/
def glucose_trend (rate : Option ℚ) : String :=
  let t1 := "stable"
  let t2 := if optGt rate 2 then "rising_fast" else t1
  let t3 := if optBetween rate 1 2 then "rising" else t2
  let t4 := if optBetween rate (-1) (-2) then "falling" else t3
  if optLt rate (-2) then "falling_fast" else t4

/-! ## Glucose range classification (`glucose_processor.py`, lines 194-199) -/

/-- The `.loc` overwrite chain of lines 194-199 of `glucose_processor.py`,
applied elementwise to one `glucose_value` cell (always non-null there). -/
def glucose_range_of (v : ℚ) : String :=
  let r1 := "normal"
  let r2 := if v < 70 then "low" else r1
  let r3 := if 180 < v then "high" else r2
  let r4 := if v < 54 then "very_low" else r3
  if 250 < v then "very_high" else r4

/-! ## Raw Libre CSV table model (`glucose_processor.py`)

After `standardize_columns` has applied the fixed rename table, the behaviour
of `clean_and_process` depends on which canonical columns are present in the
DataFrame (pandas raises `KeyError` when a selected column is absent), and on
the per-row cell values.  `RawTable` records the presence flags of the columns
the code reads, and the rows' cells; a cell is only meaningful when its
column-presence flag is set (reads go through `effHistoric`/`effScan`/
`effStrip`, which return `none` for an absent column). -/

structure RawRow where
  timestamp : Option Int
  glucose_mg_dl : Option ℚ
  glucose_mmol_l : Option ℚ
  scan_glucose_mg_dl : Option ℚ
  strip_glucose_mg_dl : Option ℚ
deriving DecidableEq, Repr

structure RawTable where
  hasTimestampCol : Bool
  hasGlucoseMgDl : Bool
  hasGlucoseMmolL : Bool
  hasScanCol : Bool
  hasStripCol : Bool
  rows : List RawRow
deriving DecidableEq, Repr

/-- Conversion factor 18.0182 of line 137 of `glucose_processor.py`. -/
def mmolToMgFactor : ℚ := 180182 / 10000

/-- Effective `glucose_mg_dl` cell after lines 136-137: if only the mmol/L
column is present, it is converted by multiplication with 18.0182 (a `NaN`
cell stays `NaN`); the mg/dL column takes precedence when present. -/
def effHistoric (t : RawTable) (r : RawRow) : Option ℚ :=
  if t.hasGlucoseMgDl then r.glucose_mg_dl
  else if t.hasGlucoseMmolL then r.glucose_mmol_l.map (fun q => q * mmolToMgFactor)
  else none

/-- Effective `scan_glucose_mg_dl` cell (column may be absent). -/
def effScan (t : RawTable) (r : RawRow) : Option ℚ :=
  if t.hasScanCol then r.scan_glucose_mg_dl else none

/-- Effective `strip_glucose_mg_dl` cell (column may be absent). -/
def effStrip (t : RawTable) (r : RawRow) : Option ℚ :=
  if t.hasStripCol then r.strip_glucose_mg_dl else none

/-- Whether a historic glucose column (`glucose_mg_dl`, possibly created from
`glucose_mmol_l` by lines 136-137) is present after the rename. -/
def hasHistoricCol (t : RawTable) : Bool := t.hasGlucoseMgDl || t.hasGlucoseMmolL

/-- Line 141: `df[glucose_columns].bfill(axis=1).iloc[:, 0]` — the first
non-null value among historic, scan and strip (in that column order). -/
def consolidatedValue (t : RawTable) (r : RawRow) : Option ℚ :=
  match effHistoric t r with
  | some v => some v
  | none =>
    match effScan t r with
    | some v => some v
    | none => effStrip t r

/-- Lines 144-148: `glucose_source` starts as `"historic"`, is overwritten to
`"scan"` wherever the scan cell is non-null, then to `"fingerstick"` wherever
the strip cell is non-null. -/
def consolidatedSource (t : RawTable) (r : RawRow) : String :=
  let s1 := "historic"
  let s2 := if (effScan t r).isSome then "scan" else s1
  if (effStrip t r).isSome then "fingerstick" else s2

/-- Row of the cleaned frame after value consolidation (lines 139-148). -/
structure CleanRow where
  timestamp : Option Int
  glucose_value : ℚ
  glucose_source : String
deriving DecidableEq, Repr

/-- Line 151: `df["glucose_value"].between(20, 600)`; false on `NaN`, so rows
with no resolved glucose value are dropped here together with out-of-range
ones. -/
def validRange (v : ℚ) : Bool := 20 ≤ v && v ≤ 600

/-- Lines 139-151 applied rowwise: consolidate the three reading types into
`glucose_value` / `glucose_source` and keep only rows whose value lies in
[20, 600]. -/
def consolidateRows (t : RawTable) : List CleanRow :=
  t.rows.filterMap (fun r =>
    match consolidatedValue t r with
    | some v =>
      if validRange v then
        some { timestamp := r.timestamp, glucose_value := v,
               glucose_source := consolidatedSource t r }
      else none
    | none => none)

/-- Helper for `drop_duplicates(subset=["timestamp"])` (line 154): keep the
first row for each timestamp value (pandas treats `NaT` cells as equal to each
other for this purpose). -/
def dedupByTsAux : List (Option Int) → List CleanRow → List CleanRow
  | _, [] => []
  | seen, r :: rest =>
    if r.timestamp ∈ seen then dedupByTsAux seen rest
    else r :: dedupByTsAux (r.timestamp :: seen) rest

/-- Line 154: `df.drop_duplicates(subset=["timestamp"])`. -/
def dropDuplicateTimestamps (l : List CleanRow) : List CleanRow := dedupByTsAux [] l

/-! Generic insertion sort parameterised by a boolean `le` relation, used to
model `DataFrame.sort_values` (the claims it serves never involve duplicate
keys, where the quicksort used by pandas could order rows differently). -/

def insertLe (le : α → α → Bool) (x : α) : List α → List α
  | [] => [x]
  | y :: ys => if le x y then x :: y :: ys else y :: insertLe le x ys

def sortLe (le : α → α → Bool) : List α → List α
  | [] => []
  | y :: ys => insertLe le y (sortLe le ys)

/-- Timestamp order used by `sort_values("timestamp")`: ascending with `NaT`
placed last (pandas default `na_position="last"`). -/
def tsLe (a b : CleanRow) : Bool :=
  match a.timestamp, b.timestamp with
  | some x, some y => x ≤ y
  | some _, none => true
  | none, some _ => false
  | none, none => true

/-- Line 157: `df.sort_values("timestamp")`. -/
def sortByTimestamp (l : List CleanRow) : List CleanRow := sortLe tsLe l

/-- Hour of day of a timestamp (`Series.dt.hour`), for naive timestamps in
seconds since the epoch. -/
def tsHour (ts : Int) : Int := Int.emod (Int.fdiv ts 3600) 24

/-- Day of week of a timestamp (`Series.dt.dayofweek`, Monday = 0): epoch day
zero (1970-01-01) was a Thursday (= 3). -/
def tsDayOfWeek (ts : Int) : Int := Int.emod (Int.fdiv ts 86400 + 3) 7

/-- Fully processed glucose reading: one row of the DataFrame returned by
`clean_and_process`, with the derived columns added by `_add_glucose_metrics`
(lines 177-199). -/
structure Reading where
  timestamp : Option Int
  glucose_value : ℚ
  glucose_source : String
  glucose_rate_change : Option ℚ
  glucose_trend : String
  hour : Option Int
  day_of_week : Option Int
  is_weekend : Bool
  glucose_range : String
deriving DecidableEq, Repr

/-- Lines 178-180: `df["glucose_value"].diff() / df["timestamp"].diff()
.dt.total_seconds() * 60`, `NaN` when either timestamp involved is `NaT` (for
the first row there is no previous row at all). -/
def rateOfChange (p c : CleanRow) : Option ℚ :=
  match p.timestamp, c.timestamp with
  | some a, some b => some ((c.glucose_value - p.glucose_value) / ((b - a : Int) : ℚ) * 60)
  | _, _ => none

/-- One row of `_add_glucose_metrics` output, given the previous row of the
sorted frame (if any). -/
def mkReading (prev : Option CleanRow) (c : CleanRow) : Reading :=
  let rate := match prev with
    | some p => rateOfChange p c
    | none => none
  { timestamp := c.timestamp
    glucose_value := c.glucose_value
    glucose_source := c.glucose_source
    glucose_rate_change := rate
    glucose_trend := glucose_trend rate
    hour := c.timestamp.map tsHour
    day_of_week := c.timestamp.map tsDayOfWeek
    is_weekend := match c.timestamp.map tsDayOfWeek with
      | some d => decide (d = 5 ∨ d = 6)
      | none => false
    glucose_range := glucose_range_of c.glucose_value }

def addGlucoseMetricsAux : Option CleanRow → List CleanRow → List Reading
  | _, [] => []
  | prev, c :: rest => mkReading prev c :: addGlucoseMetricsAux (some c) rest

/-- `_add_glucose_metrics` (lines 167-201) over the sorted, deduplicated
frame. -/
def add_glucose_metrics (l : List CleanRow) : List Reading := addGlucoseMetricsAux none l

/-- `clean_and_process` (lines 117-165).  Selecting `df[glucose_columns]`
(line 141) raises a pandas `KeyError` when any of the three glucose columns is
absent (the historic one counts as present when it was created from the
mmol/L column), and `drop_duplicates(subset=["timestamp"])` raises when the
timestamp column is absent; both surface to the caller as errors, modelled by
`Except.error`. -/
def clean_and_process (t : RawTable) : Except String (List Reading) :=
  if hasHistoricCol t && t.hasScanCol && t.hasStripCol then
    if t.hasTimestampCol then
      Except.ok (add_glucose_metrics (sortByTimestamp (dropDuplicateTimestamps (consolidateRows t))))
    else Except.error "KeyError: timestamp not in index"
  else Except.error "KeyError: glucose columns not in index"

/-! ## Time-in-range statistics (`glucose_processor.py`, lines 203-243)

`get_time_in_range_stats` returns an empty dict on an empty processed frame,
modelled as `none`.  The `glucose_std` and `coefficient_variation` entries
involve a real square root (sample standard deviation); no claim concerns
them and they are not representable in `ℚ`, so the model carries the five
percentage entries and the mean. -/

structure TirStats where
  time_very_low_percent : ℚ
  time_low_percent : ℚ
  time_in_range_percent : ℚ
  time_high_percent : ℚ
  time_very_high_percent : ℚ
  average_glucose : ℚ
deriving DecidableEq, Repr

/-- `(df["glucose_range"] == cat).sum()`. -/
def rangeCount (rs : List Reading) (cat : String) : Nat :=
  (rs.filter (fun r => r.glucose_range = cat)).length

/-- `(df["glucose_range"] == cat).sum() / total_readings * 100`. -/
def rangePercent (rs : List Reading) (cat : String) : ℚ :=
  (rangeCount rs cat : ℚ) / (rs.length : ℚ) * 100

/-- `get_time_in_range_stats` (lines 203-243). -/
def get_time_in_range_stats (rs : List Reading) : Option TirStats :=
  if rs.length = 0 then none
  else some
    { time_very_low_percent := rangePercent rs "very_low"
      time_low_percent := rangePercent rs "low"
      time_in_range_percent := rangePercent rs "normal"
      time_high_percent := rangePercent rs "high"
      time_very_high_percent := rangePercent rs "very_high"
      average_glucose := (rs.map Reading.glucose_value).sum / (rs.length : ℚ) }

/-! ## Data merger model (`data_merger.py`)

`HealthDataMerger` holds the two loaded DataFrames (`None` before loading).
Rows carry the columns the merger reads.  Timestamps are non-null integer
seconds (`merge_asof` requires non-null sorted keys).  The model assumes the
health frame carries its `startDate` column (rows would not exist otherwise)
— the rename of line 62 is applied up front. -/

structure HealthRow where
  type : String
  sourceName : String
  value : Option ℚ
  unit : String
  startDate : Int
deriving DecidableEq, Repr

/-- One row of the processed glucose frame as consumed by the merger (its
`timestamp` column is renamed to `glucose_timestamp` by line 57). -/
structure GlucoseRow where
  timestamp : Int
  glucose_value : ℚ
  glucose_source : String
  glucose_trend : String
  glucose_range : String
deriving DecidableEq, Repr

/-- One row of the merged frame: the matched pair plus the derived
`time_diff_minutes` column (lines 87-89). -/
structure AlignedRow where
  health_timestamp : Int
  glucose_timestamp : Int
  time_diff_minutes : ℚ
  health : HealthRow
  glucose : GlucoseRow
deriving DecidableEq, Repr

/-- Backward leg of `pd.merge_asof(..., direction="nearest")`: the last row of
the sorted glucose frame whose timestamp is `≤ ts`, kept only when it lies
within `tolSec` seconds. -/
def backwardMatch (tolSec : Int) (sgs : List GlucoseRow) (ts : Int) : Option GlucoseRow :=
  match (sgs.filter (fun g => g.timestamp ≤ ts)).getLast? with
  | some g => if ts - g.timestamp ≤ tolSec then some g else none
  | none => none

/-- Forward leg of `pd.merge_asof(..., direction="nearest")`: the first row of
the sorted glucose frame whose timestamp is `≥ ts`, kept only when it lies
within `tolSec` seconds. -/
def forwardMatch (tolSec : Int) (sgs : List GlucoseRow) (ts : Int) : Option GlucoseRow :=
  match (sgs.filter (fun g => ts ≤ g.timestamp)).head? with
  | some g => if g.timestamp - ts ≤ tolSec then some g else none
  | none => none

/-- `pd.merge_asof(..., direction="nearest", tolerance)`: combine the backward
and forward candidates, choosing the backward (earlier) one when its distance
is less than or equal to the forward distance — pandas picks backward on
ties. -/
def matchNearest (tolSec : Int) (sgs : List GlucoseRow) (ts : Int) : Option GlucoseRow :=
  match backwardMatch tolSec sgs ts, forwardMatch tolSec sgs ts with
  | some b, some f => if ts - b.timestamp ≤ f.timestamp - ts then some b else some f
  | some b, none => some b
  | none, some f => some f
  | none, none => none

/-- Lines 56-94 of `align_timestamps` once both inputs are present: sort both
frames by timestamp, nearest-match each health row against the glucose frame
within the tolerance (in minutes, converted to a `Timedelta`), drop health
rows without a match (`dropna`, line 84), and record the signed time
difference in minutes (lines 87-89). -/
def alignCore (tolMin : Int) (hs : List HealthRow) (gs : List GlucoseRow) : List AlignedRow :=
  let sgs := sortLe (fun a b => a.timestamp ≤ b.timestamp) gs
  let shs := sortLe (fun a b => a.startDate ≤ b.startDate) hs
  shs.filterMap (fun h =>
    (matchNearest (60 * tolMin) sgs h.startDate).map (fun g =>
      { health_timestamp := h.startDate
        glucose_timestamp := g.timestamp
        time_diff_minutes := ((h.startDate - g.timestamp : Int) : ℚ) / 60
        health := h
        glucose := g }))

/-- Mutable state of `HealthDataMerger`: the two loaded frames, `None` before
`load_apple_health_data` / `load_glucose_data` have been called. -/
structure MergerState where
  apple_health_data : Option (List HealthRow)
  glucose_data : Option (List GlucoseRow)
deriving DecidableEq, Repr

/-- `align_timestamps` (lines 42-94): raises `ValueError` (lines 52-53) when
either dataset is still `None`; otherwise performs the nearest merge, with no
emptiness check. -/
def align_timestamps (st : MergerState) (tolMin : Int) : Except String (List AlignedRow) :=
  match st.apple_health_data, st.glucose_data with
  | some hs, some gs => Except.ok (alignCore tolMin hs gs)
  | _, _ => Except.error "Both datasets must be loaded before merging"

/-! ## Window aggregation (`data_merger.py`, lines 96-150)

`create_time_windows` resamples the merged frame on `glucose_timestamp` into
`window_minutes`-sized buckets.  Empty intermediate buckets emitted by
`resample` have a null `glucose_value` mean and are removed again by the
`dropna` of line 145, so the model materialises exactly the non-empty buckets
(in ascending order, as `resample` emits them).  The categorical aggregation
of lines 134-142 is `x.mode().iloc[0]`; `Series.mode()` returns the most
frequent values *sorted ascending*, so ties resolve to the least value.
`glucose_value_std` (sample standard deviation) involves a real square root;
no claim concerns it, so the aggregate carries mean and count only. -/

/-- Number of occurrences of `v` in `l`. -/
def countStr (l : List String) (v : String) : Nat := (l.filter (fun x => x = v)).length

/-- Highest occurrence count over the distinct values of `l`. -/
def maxCountStr (l : List String) : Nat := ((l.dedup).map (countStr l)).foldr max 0

/-- The distinct values of `l` attaining the highest occurrence count. -/
def modeCandidates (l : List String) : List String :=
  (l.dedup).filter (fun v => countStr l v = maxCountStr l)

/-- Lexicographic codepoint comparison of character lists: the order pandas
uses when sorting the values of an object-dtype Series of strings. -/
def charListLe : List Char → List Char → Bool
  | [], _ => true
  | _ :: _, [] => false
  | a :: as, b :: bs =>
    if a.toNat < b.toNat then true
    else if b.toNat < a.toNat then false
    else charListLe as bs

/-- String comparison by codepoints (Python string comparison). -/
def strLe (a b : String) : Bool := charListLe a.data b.data

/-- `x.mode().iloc[0] if len(x.mode()) > 0 else None` (line 141): pandas
returns the tied most-frequent values sorted ascending, so `iloc[0]` is the
least of them. -/
def seriesMode (l : List String) : Option String :=
  (sortLe strLe (modeCandidates l)).head?

/-- Bucket index of a timestamp for `resample(f"{window_minutes}T")` window
boundaries. -/
def windowStartKey (winMin : Int) (ts : Int) : Int := Int.fdiv ts (60 * winMin)

/-- The merged rows falling in the window of bucket index `k`, in frame
order. -/
def windowRows (winMin : Int) (rows : List AlignedRow) (k : Int) : List AlignedRow :=
  rows.filter (fun r => windowStartKey winMin r.glucose_timestamp = k)

/-- The bucket indices that carry at least one merged row, ascending. -/
def windowKeys (winMin : Int) (rows : List AlignedRow) : List Int :=
  sortLe (fun a b => a ≤ b) ((rows.map (fun r => windowStartKey winMin r.glucose_timestamp)).dedup)

/-- One row of the windowed frame (lines 119-142). -/
structure WindowAgg where
  window_start : Int
  glucose_value_mean : ℚ
  glucose_value_count : Nat
  value_mean : Option ℚ
  value_sum : ℚ
  time_diff_minutes_mean : ℚ
  type_mode : Option String
  glucose_range_mode : Option String
  glucose_trend_mode : Option String
  sourceName_mode : Option String
deriving DecidableEq, Repr

/-- Aggregate one window: numeric means/sums skip nulls (pandas default); the
four categorical columns are aggregated with `x.mode().iloc[0]`. -/
def mkWindow (winMin : Int) (rows : List AlignedRow) (k : Int) : WindowAgg :=
  let wr := windowRows winMin rows k
  let gvals := wr.map (fun r => r.glucose.glucose_value)
  let hvals := wr.filterMap (fun r => r.health.value)
  { window_start := k * (60 * winMin)
    glucose_value_mean := gvals.sum / (gvals.length : ℚ)
    glucose_value_count := gvals.length
    value_mean := if hvals.length = 0 then none else some (hvals.sum / (hvals.length : ℚ))
    value_sum := hvals.sum
    time_diff_minutes_mean := (wr.map (fun r => r.time_diff_minutes)).sum / (wr.length : ℚ)
    type_mode := seriesMode (wr.map (fun r => r.health.type))
    glucose_range_mode := seriesMode (wr.map (fun r => r.glucose.glucose_range))
    glucose_trend_mode := seriesMode (wr.map (fun r => r.glucose.glucose_trend))
    sourceName_mode := seriesMode (wr.map (fun r => r.health.sourceName)) }

/-- `create_time_windows` (lines 96-150) over an already-merged frame. -/
def create_time_windows (winMin : Int) (rows : List AlignedRow) : List WindowAgg :=
  (windowKeys winMin rows).map (mkWindow winMin rows)

/-! ## Contextual features (`data_merger.py`, lines 152-188)

`add_contextual_features` derives time-of-day columns from the preferred
timestamp column (`glucose_timestamp` when present, as it is on merged data).
All `between` calls are inclusive on both ends, exactly as in the source —
including `is_night = df["hour"].between(22, 6)` on line 176. -/

structure ContextRow where
  base : AlignedRow
  hour : Int
  day_of_week : Int
  is_weekend : Bool
  is_night : Bool
  is_morning : Bool
  is_afternoon : Bool
  is_evening : Bool
  likely_meal_time : Bool
deriving DecidableEq, Repr

/-- `add_contextual_features` (lines 152-188) on merged rows. -/
def add_contextual_features (rows : List AlignedRow) : List ContextRow :=
  rows.map (fun r =>
    let h := tsHour r.glucose_timestamp
    let d := tsDayOfWeek r.glucose_timestamp
    { base := r
      hour := h
      day_of_week := d
      is_weekend := decide (d = 5 ∨ d = 6)
      is_night := decide (22 ≤ h ∧ h ≤ 6)
      is_morning := decide (6 ≤ h ∧ h ≤ 12)
      is_afternoon := decide (12 ≤ h ∧ h ≤ 18)
      is_evening := decide (18 ≤ h ∧ h ≤ 22)
      likely_meal_time := decide ((7 ≤ h ∧ h ≤ 9) ∨ (12 ≤ h ∧ h ≤ 14) ∨ (18 ≤ h ∧ h ≤ 20)) })

/-! ## Concrete example inputs used to exercise the definitions -/

/-- A Libre table with all five canonical columns, whose single row carries
both a historic and a scan glucose value. -/
def tableHistScan : RawTable :=
  { hasTimestampCol := true, hasGlucoseMgDl := true, hasGlucoseMmolL := false
    hasScanCol := true, hasStripCol := true
    rows := [{ timestamp := some 0, glucose_mg_dl := some 100, glucose_mmol_l := none
               scan_glucose_mg_dl := some 120, strip_glucose_mg_dl := none }] }

/-- A Libre table with no glucose column at all after the rename. -/
def tableNoGlucoseCols : RawTable :=
  { hasTimestampCol := true, hasGlucoseMgDl := false, hasGlucoseMmolL := false
    hasScanCol := false, hasStripCol := false
    rows := [{ timestamp := some 0, glucose_mg_dl := none, glucose_mmol_l := none
               scan_glucose_mg_dl := none, strip_glucose_mg_dl := none }] }

/-- A Libre table with two historic readings five minutes apart. -/
def tableTwoReadings : RawTable :=
  { hasTimestampCol := true, hasGlucoseMgDl := true, hasGlucoseMmolL := false
    hasScanCol := true, hasStripCol := true
    rows := [{ timestamp := some 0, glucose_mg_dl := some 100, glucose_mmol_l := none
               scan_glucose_mg_dl := none, strip_glucose_mg_dl := none },
             { timestamp := some 300, glucose_mg_dl := some 200, glucose_mmol_l := none
               scan_glucose_mg_dl := none, strip_glucose_mg_dl := none }] }

/-- A health record at 10 minutes past the epoch. -/
def hrAt600 : HealthRow :=
  { type := "HKQuantityTypeIdentifierStepCount", sourceName := "Watch"
    value := some 12, unit := "count", startDate := 600 }

/-- A glucose reading at 5 minutes past the epoch. -/
def grAt300 : GlucoseRow :=
  { timestamp := 300, glucose_value := 100, glucose_source := "historic"
    glucose_trend := "stable", glucose_range := "normal" }

/-- A glucose reading at 15 minutes past the epoch (equidistant from
`hrAt600` with `grAt300`). -/
def grAt900 : GlucoseRow :=
  { timestamp := 900, glucose_value := 110, glucose_source := "historic"
    glucose_trend := "stable", glucose_range := "normal" }

/-- Merged rows for the window aggregator: both fall into the first 60-minute
window; their health `type` values are `"b"` then `"a"` in frame order, each
occurring once (a tie for most frequent). -/
def alignedB : AlignedRow :=
  { health_timestamp := 10, glucose_timestamp := 0
    time_diff_minutes := 1 / 6
    health := { type := "b", sourceName := "Watch", value := some 1
                unit := "count", startDate := 10 }
    glucose := grAt300 }

def alignedA : AlignedRow :=
  { health_timestamp := 70, glucose_timestamp := 60
    time_diff_minutes := 1 / 6
    health := { type := "a", sourceName := "Watch", value := some 2
                unit := "count", startDate := 70 }
    glucose := grAt900 }

/-- A merged row whose glucose timestamp is 82800 s = 1970-01-01 23:00, i.e.
hour 23 — squarely in the claimed night span. -/
def alignedHour23 : AlignedRow :=
  { health_timestamp := 82800, glucose_timestamp := 82800
    time_diff_minutes := 0
    health := { type := "HKQuantityTypeIdentifierStepCount", sourceName := "Watch"
                value := some 3, unit := "count", startDate := 82800 }
    glucose := { timestamp := 82800, glucose_value := 100, glucose_source := "historic"
                 glucose_trend := "stable", glucose_range := "normal" } }

/-- What it means for `m` to be the mode of `l` under the pandas tie rule:
`m` occurs in `l`, no value occurs more often, and among the values tied for
the highest count `m` is the least in sort order. -/
def isModeOf (m : String) (l : List String) : Prop :=
  m ∈ l ∧ (∀ v ∈ l, countStr l v ≤ countStr l m) ∧
    ∀ v ∈ l, countStr l v = countStr l m → strLe m v = true

/-- The single processed reading produced from `tableHistScan`. -/
def readingHistScan : Reading :=
  { timestamp := some 0, glucose_value := 100, glucose_source := "scan"
    glucose_rate_change := none, glucose_trend := "stable", hour := some 0
    day_of_week := some 3, is_weekend := false, glucose_range := "normal" }

/-- The time-in-range statistics of the single-reading series
`[readingHistScan]`. -/
def statsHistScan : TirStats :=
  { time_very_low_percent := 0, time_low_percent := 0, time_in_range_percent := 100
    time_high_percent := 0, time_very_high_percent := 0, average_glucose := 100 }

/-- The single aligned record produced from `[hrAt600]` and `[grAt300]` at
tolerance 15. -/
def alignedAt600 : AlignedRow :=
  { health_timestamp := 600, glucose_timestamp := 300
    time_diff_minutes := ((600 - 300 : Int) : ℚ) / 60
    health := hrAt600, glucose := grAt300 }

/-- The single window produced from `[alignedB, alignedA]` with 60-minute
windows. -/
def windowBA : WindowAgg := mkWindow 60 [alignedB, alignedA] 0

/-! ## Helper lemmas about the generic insertion sort and list utilities -/

theorem perm_insertLe (le : α → α → Bool) (x : α) :
    ∀ l : List α, (insertLe le x l).Perm (x :: l)
  | [] => List.Perm.refl _
  | y :: ys => by
    unfold insertLe
    split_ifs with h
    · exact List.Perm.refl _
    · exact ((perm_insertLe le x ys).cons y).trans (List.Perm.swap x y ys)

theorem perm_sortLe (le : α → α → Bool) : ∀ l : List α, (sortLe le l).Perm l
  | [] => List.Perm.refl _
  | y :: ys => (perm_insertLe le y (sortLe le ys)).trans ((perm_sortLe le ys).cons y)

theorem mem_sortLe (le : α → α → Bool) (l : List α) (a : α) :
    a ∈ sortLe le l ↔ a ∈ l :=
  (perm_sortLe le l).mem_iff

theorem pairwise_insertLe (le : α → α → Bool)
    (htot : ∀ a b, le a b = true ∨ le b a = true)
    (htrans : ∀ a b c, le a b = true → le b c = true → le a c = true) (x : α) :
    ∀ l : List α, l.Pairwise (fun a b => le a b = true) →
      (insertLe le x l).Pairwise (fun a b => le a b = true)
  | [], _ => List.pairwise_singleton _ x
  | y :: ys, hp => by
    rw [List.pairwise_cons] at hp
    unfold insertLe
    split_ifs with hxy
    · refine List.Pairwise.cons ?_ (List.Pairwise.cons hp.1 hp.2)
      intro z hz
      rcases List.mem_cons.mp hz with rfl | hz2
      · exact hxy
      · exact htrans x y z hxy (hp.1 z hz2)
    · have hyx : le y x = true := by
        rcases htot x y with h | h
        · exact absurd h hxy
        · exact h
      refine List.Pairwise.cons ?_ (pairwise_insertLe le htot htrans x ys hp.2)
      intro z hz
      rcases List.mem_cons.mp ((perm_insertLe le x ys).mem_iff.mp hz) with rfl | hz2
      · exact hyx
      · exact hp.1 z hz2

theorem pairwise_sortLe (le : α → α → Bool)
    (htot : ∀ a b, le a b = true ∨ le b a = true)
    (htrans : ∀ a b c, le a b = true → le b c = true → le a c = true) :
    ∀ l : List α, (sortLe le l).Pairwise (fun a b => le a b = true)
  | [] => List.Pairwise.nil
  | y :: ys => pairwise_insertLe le htot htrans y (sortLe le ys) (pairwise_sortLe le htot htrans ys)

theorem mem_of_head?_eq {l : List α} {a : α} (h : l.head? = some a) : a ∈ l := by
  cases l with
  | nil => simp at h
  | cons x xs =>
    simp only [List.head?_cons, Option.some.injEq] at h
    exact h ▸ List.mem_cons_self x xs

theorem mem_of_getLast?_eq : ∀ {l : List α} {a : α}, l.getLast? = some a → a ∈ l
  | [], a, h => by simp at h
  | [x], a, h => by
    simp only [List.getLast?_singleton, Option.some.injEq] at h
    simp [h]
  | x :: y :: ys, a, h => by
    rw [List.getLast?_cons_cons] at h
    exact List.mem_cons_of_mem x (mem_of_getLast?_eq h)

theorem head?_min {R : α → α → Prop} {l : List α} {f : α}
    (hp : l.Pairwise R) (hf : l.head? = some f) : ∀ x ∈ l, x = f ∨ R f x := by
  cases l with
  | nil => simp at hf
  | cons y ys =>
    simp only [List.head?_cons, Option.some.injEq] at hf
    subst hf
    rw [List.pairwise_cons] at hp
    intro x hx
    rcases List.mem_cons.mp hx with rfl | hx2
    · exact Or.inl rfl
    · exact Or.inr (hp.1 x hx2)

theorem getLast?_max {R : α → α → Prop} :
    ∀ {l : List α} {b : α}, l.Pairwise R → l.getLast? = some b → ∀ x ∈ l, x = b ∨ R x b
  | [], b, _, hb => by simp at hb
  | [y], b, _, hb => by
    simp only [List.getLast?_singleton, Option.some.injEq] at hb
    intro x hx
    rcases List.mem_cons.mp hx with rfl | hx2
    · exact Or.inl hb
    · simp at hx2
  | y :: z :: zs, b, hp, hb => by
    rw [List.getLast?_cons_cons] at hb
    rw [List.pairwise_cons] at hp
    intro x hx
    rcases List.mem_cons.mp hx with rfl | hx2
    · exact Or.inr (hp.1 b (mem_of_getLast?_eq hb))
    · exact getLast?_max hp.2 hb x hx2

/-! ## Claim C1: trend classification -/

theorem glucose_trend_ne_falling (rate : Option ℚ) : glucose_trend rate ≠ "falling" := by
  unfold glucose_trend
  cases rate with
  | none => simp [optGt, optLt, optBetween]
  | some r =>
    simp only [optGt, optLt, optBetween]
    split_ifs with h1 h2 h3 h4 <;> first
      | (intro hc; exact absurd hc (by decide))
      | (exfalso
         have hba : ((-1 : ℚ) ≤ r && r ≤ (-2 : ℚ)) = true := by assumption
         have hgood := (Bool.and_eq_true _ _).mp hba
         have hx1 : (-1 : ℚ) ≤ r := by exact_mod_cast of_decide_eq_true hgood.1
         have hx2 : r ≤ (-2 : ℚ) := by exact_mod_cast of_decide_eq_true hgood.2
         linarith)

/-- C1: the claim states that a rate of change in [-2, -1] yields trend
`"falling"`.  In the code the `"falling"` mask is `between(-1, -2)`, i.e.
`rate ≥ -1 ∧ rate ≤ -2`, which no rate satisfies, so `"falling"` is never
assigned; a rate of -1.5 mg/dL/min (inside the claimed interval) is
classified `"stable"`. -/
theorem C1_falling_never_assigned :
    glucose_trend (some (-(3 : ℚ) / 2)) = "stable" ∧
    (-2 : ℚ) ≤ -(3 : ℚ) / 2 ∧ -(3 : ℚ) / 2 ≤ -1 ∧
    ∀ rate : Option ℚ, glucose_trend rate ≠ "falling" :=
  ⟨by norm_num [glucose_trend, optGt, optLt, optBetween], by norm_num, by norm_num,
   glucose_trend_ne_falling⟩

/-! ## Claim C9: range classification -/

/-- C9: the range category produced by lines 194-199 follows exactly the
five-band classification of the spec, with values 70 and 180 mapping to
`"normal"`. -/
theorem C9_range_classification (v : ℚ) :
    (v < 54 → glucose_range_of v = "very_low") ∧
    (54 ≤ v → v < 70 → glucose_range_of v = "low") ∧
    (70 ≤ v → v ≤ 180 → glucose_range_of v = "normal") ∧
    (180 < v → v ≤ 250 → glucose_range_of v = "high") ∧
    (250 < v → glucose_range_of v = "very_high") := by
  refine ⟨?_, ?_, ?_, ?_, ?_⟩ <;> intros <;> simp only [glucose_range_of] <;>
    split_ifs <;> first | rfl | linarith

/-- C9 witness: the claimed boundary behaviour at 53, 69.999, 70, 180,
180.001 and 251, via `C9_range_classification`. -/
theorem C9_range_classification_witness :
    glucose_range_of 53 = "very_low" ∧ glucose_range_of (69999 / 1000) = "low" ∧
    glucose_range_of 70 = "normal" ∧ glucose_range_of 180 = "normal" ∧
    glucose_range_of (180001 / 1000) = "high" ∧ glucose_range_of 251 = "very_high" :=
  ⟨(C9_range_classification 53).1 (by norm_num),
   (C9_range_classification (69999 / 1000)).2.1 (by norm_num) (by norm_num),
   (C9_range_classification 70).2.2.1 (by norm_num) (by norm_num),
   (C9_range_classification 180).2.2.1 (by norm_num) (by norm_num),
   (C9_range_classification (180001 / 1000)).2.2.2.1 (by norm_num) (by norm_num),
   (C9_range_classification 251).2.2.2.2 (by norm_num)⟩

/-! ## Claim C8: is_night -/

/-- C8: the claim states `is_night` is true exactly for hours in
[22,24) ∪ [0,6].  The code computes `hour.between(22, 6)`, i.e.
`hour ≥ 22 ∧ hour ≤ 6`, which no hour satisfies: `is_night` is false on every
record, in particular on a record at hour 23. -/
theorem C8_is_night_never_true :
    ((add_contextual_features [alignedHour23]).map (fun r => (r.hour, r.is_night)) =
      [(23, false)]) ∧
    ∀ rows : List AlignedRow, ∀ r ∈ add_contextual_features rows, r.is_night = false := by
  refine ⟨by decide, ?_⟩
  intro rows r hr
  simp only [add_contextual_features, List.mem_map] at hr
  obtain ⟨a, -, rfl⟩ := hr
  simp only [decide_eq_false_iff_not]
  intro hcon
  linarith [hcon.1, hcon.2]

/-! ## Claim C6: precondition check of align_timestamps -/

/-- C6 counterexample: the claim states alignment fails whenever either input
is empty or unloaded.  With both datasets loaded but the glucose frame empty,
`align_timestamps` returns an (empty) result instead of raising. -/
theorem C6_empty_input_counterexample :
    align_timestamps { apple_health_data := some [hrAt600], glucose_data := some [] } 15 =
      Except.ok [] ∧
    ∀ msg, align_timestamps { apple_health_data := some [hrAt600], glucose_data := some [] } 15 ≠
      Except.error msg := by
  refine ⟨rfl, ?_⟩
  intro msg h
  simp [align_timestamps, alignCore] at h

/-- C6 amended: `align_timestamps` raises its `ValueError` exactly when one of
the two datasets has not been loaded (`None`); loaded-but-empty inputs run the
merge and yield a result. -/
theorem C6_error_iff_unloaded (st : MergerState) (tolMin : Int) :
    (∃ e, align_timestamps st tolMin = Except.error e) ↔
      (st.apple_health_data = none ∨ st.glucose_data = none) := by
  obtain ⟨hd, gd⟩ := st
  cases hd <;> cases gd <;> simp [align_timestamps]

/-! ## Claim C3: missing glucose columns -/

/-- C3: when, after the rename, no historic (mg/dL or mmol/L), scan or strip
glucose column is present, `clean_and_process` raises instead of returning a
frame (the selection `df[glucose_columns]` on line 141 fails). -/
theorem C3_missing_glucose_columns_error (t : RawTable)
    (h1 : hasHistoricCol t = false) (h2 : t.hasScanCol = false)
    (h3 : t.hasStripCol = false) :
    ∃ e, clean_and_process t = Except.error e := by
  refine ⟨"KeyError: glucose columns not in index", ?_⟩
  simp [clean_and_process, h1, h2, h3]

/-- C3 witness: the error on a concrete table with no glucose column, via
`C3_missing_glucose_columns_error`. -/
theorem C3_missing_glucose_columns_error_witness :
    ∃ e, clean_and_process tableNoGlucoseCols = Except.error e :=
  C3_missing_glucose_columns_error tableNoGlucoseCols (by decide) (by decide) (by decide)

/-! ## Claim C2: value consolidation and source labelling -/

/-- C2 counterexample: the claim states the `source` field records exactly
which reading type supplied the effective value, so a row with both a
historic and a scan value should be labelled `"historic"`.  On such a row the
code takes the historic value (100) but labels it `"scan"`: the overwrite on
line 146 fires whenever a scan value is present, regardless of which column
supplied the effective value. -/
theorem C2_source_label_counterexample :
    clean_and_process tableHistScan = Except.ok [readingHistScan] ∧
    readingHistScan.glucose_value = 100 ∧
    (∀ raw ∈ tableHistScan.rows, effHistoric tableHistScan raw = some 100) ∧
    readingHistScan.glucose_source = "scan" ∧ "scan" ≠ "historic" := by
  refine ⟨rfl, by decide, by decide, by decide, by decide⟩

theorem mem_of_dedupByTsAux :
    ∀ (seen : List (Option Int)) (l : List CleanRow) (c : CleanRow),
      c ∈ dedupByTsAux seen l → c ∈ l
  | _, [], _, h => by simp [dedupByTsAux] at h
  | seen, r :: rest, c, h => by
    unfold dedupByTsAux at h
    split_ifs at h with hseen
    · exact List.mem_cons_of_mem r (mem_of_dedupByTsAux seen rest c h)
    · rcases List.mem_cons.mp h with rfl | h2
      · exact List.mem_cons_self _ _
      · exact List.mem_cons_of_mem r (mem_of_dedupByTsAux _ rest c h2)

theorem mem_addGlucoseMetricsAux {r : Reading} :
    ∀ (p : Option CleanRow) (l : List CleanRow), r ∈ addGlucoseMetricsAux p l →
      ∃ c ∈ l, r.glucose_value = c.glucose_value ∧ r.glucose_source = c.glucose_source ∧
        r.glucose_range = glucose_range_of c.glucose_value
  | _, [], h => by simp [addGlucoseMetricsAux] at h
  | p, c :: rest, h => by
    unfold addGlucoseMetricsAux at h
    rcases List.mem_cons.mp h with rfl | h2
    · exact ⟨c, List.mem_cons_self _ _, rfl, rfl, rfl⟩
    · obtain ⟨c2, hc2, hprops⟩ := mem_addGlucoseMetricsAux (some c) rest h2
      exact ⟨c2, List.mem_cons_of_mem c hc2, hprops⟩

theorem mem_consolidateRows {t : RawTable} {c : CleanRow} (hc : c ∈ consolidateRows t) :
    ∃ raw ∈ t.rows, consolidatedValue t raw = some c.glucose_value ∧
      c.glucose_source = consolidatedSource t raw := by
  simp only [consolidateRows, List.mem_filterMap] at hc
  obtain ⟨raw, hraw, hmk⟩ := hc
  refine ⟨raw, hraw, ?_⟩
  cases hcv : consolidatedValue t raw with
  | none => rw [hcv] at hmk; simp at hmk
  | some v =>
    rw [hcv] at hmk
    simp only at hmk
    split_ifs at hmk with hvr
    rw [Option.some.injEq] at hmk
    subst hmk
    exact ⟨rfl, rfl⟩

/-- Rows returned by `clean_and_process` come from raw rows, preserving the
consolidated value, source and derived range. -/
theorem clean_and_process_row_origin (t : RawTable) (rs : List Reading)
    (hok : clean_and_process t = Except.ok rs) :
    ∀ r ∈ rs, ∃ raw ∈ t.rows,
      consolidatedValue t raw = some r.glucose_value ∧
      r.glucose_source = consolidatedSource t raw ∧
      r.glucose_range = glucose_range_of r.glucose_value := by
  intro r hr
  unfold clean_and_process at hok
  split_ifs at hok with hcols hts
  · rw [Except.ok.injEq] at hok
    subst hok
    obtain ⟨c, hc, hval, hsrc, hrange⟩ := mem_addGlucoseMetricsAux none _ hr
    unfold sortByTimestamp at hc
    rw [mem_sortLe] at hc
    have hc2 := mem_of_dedupByTsAux [] _ c hc
    obtain ⟨raw, hraw, hcv, hcs⟩ := mem_consolidateRows hc2
    exact ⟨raw, hraw, by rw [hcv, hval], by rw [hsrc, hcs], by rw [hrange, hval]⟩

theorem consolidatedValue_priority (t : RawTable) (raw : RawRow) (w : ℚ)
    (h : consolidatedValue t raw = some w) :
    effHistoric t raw = some w ∨
    (effHistoric t raw = none ∧ effScan t raw = some w) ∨
    (effHistoric t raw = none ∧ effScan t raw = none ∧ effStrip t raw = some w) := by
  unfold consolidatedValue at h
  cases hh : effHistoric t raw with
  | some v =>
    rw [hh] at h
    exact Or.inl h
  | none =>
    rw [hh] at h
    cases hsc : effScan t raw with
    | some u =>
      rw [hsc] at h
      exact Or.inr (Or.inl ⟨rfl, h⟩)
    | none =>
      rw [hsc] at h
      exact Or.inr (Or.inr ⟨rfl, rfl, h⟩)

/-- C2 amended: the effective glucose value is the first present value in
priority order historic, scan, fingerstick (as claimed), but the `source`
label is computed independently of which column supplied the value: it is
`"fingerstick"` whenever a strip value is present, else `"scan"` whenever a
scan value is present, else `"historic"`.  The label therefore names the
supplier only when at most one reading type is present on the row. -/
theorem C2_value_priority_and_source_label (t : RawTable) (rs : List Reading)
    (hok : clean_and_process t = Except.ok rs) :
    ∀ r ∈ rs, ∃ raw ∈ t.rows,
      (r.glucose_source =
        if (effStrip t raw).isSome then "fingerstick"
        else if (effScan t raw).isSome then "scan" else "historic") ∧
      (effHistoric t raw = some r.glucose_value ∨
        (effHistoric t raw = none ∧ effScan t raw = some r.glucose_value) ∨
        (effHistoric t raw = none ∧ effScan t raw = none ∧
          effStrip t raw = some r.glucose_value)) := by
  intro r hr
  obtain ⟨raw, hraw, hval, hsrc, -⟩ := clean_and_process_row_origin t rs hok r hr
  refine ⟨raw, hraw, ?_, consolidatedValue_priority t raw _ hval⟩
  rw [hsrc]
  unfold consolidatedSource
  by_cases hstrip : (effStrip t raw).isSome <;> simp [hstrip]

/-- C2 witness: the amended statement applied to the concrete table
`tableHistScan` and its single output reading. -/
theorem C2_value_priority_witness :
    ∃ raw ∈ tableHistScan.rows,
      (readingHistScan.glucose_source =
        if (effStrip tableHistScan raw).isSome then "fingerstick"
        else if (effScan tableHistScan raw).isSome then "scan" else "historic") ∧
      (effHistoric tableHistScan raw = some readingHistScan.glucose_value ∨
        (effHistoric tableHistScan raw = none ∧
          effScan tableHistScan raw = some readingHistScan.glucose_value) ∨
        (effHistoric tableHistScan raw = none ∧ effScan tableHistScan raw = none ∧
          effStrip tableHistScan raw = some readingHistScan.glucose_value)) :=
  C2_value_priority_and_source_label tableHistScan [readingHistScan] rfl
    readingHistScan (by decide)

/-! ## Claim C10: time-in-range percentages -/

theorem glucose_range_of_cases (v : ℚ) :
    glucose_range_of v = "very_low" ∨ glucose_range_of v = "low" ∨
    glucose_range_of v = "normal" ∨ glucose_range_of v = "high" ∨
    glucose_range_of v = "very_high" := by
  simp only [glucose_range_of]
  split_ifs <;> simp

theorem range_indicator_sum_one (s : String)
    (hs : s = "very_low" ∨ s = "low" ∨ s = "normal" ∨ s = "high" ∨ s = "very_high") :
    (if s = "very_low" then 1 else 0) + (if s = "low" then 1 else 0) +
      (if s = "normal" then 1 else 0) + (if s = "high" then 1 else 0) +
      (if s = "very_high" then 1 else 0) = 1 := by
  rcases hs with rfl | rfl | rfl | rfl | rfl <;> decide

theorem rangeCount_cons (r : Reading) (rest : List Reading) (cat : String) :
    rangeCount (r :: rest) cat =
      (if r.glucose_range = cat then 1 else 0) + rangeCount rest cat := by
  simp only [rangeCount, List.filter_cons]
  split_ifs with h1 h2 h3
  · simp [Nat.add_comm]
  · simp at h1
    exact absurd h1 h2
  · simp at h1
    exact absurd h3 h1
  · simp

theorem rangeCount_partition (rs : List Reading)
    (h : ∀ r ∈ rs, r.glucose_range = glucose_range_of r.glucose_value) :
    rangeCount rs "very_low" + rangeCount rs "low" + rangeCount rs "normal" +
      rangeCount rs "high" + rangeCount rs "very_high" = rs.length := by
  induction rs with
  | nil => rfl
  | cons r rest ih =>
    have hr := h r (List.mem_cons_self r rest)
    have hind := range_indicator_sum_one r.glucose_range
      (hr ▸ glucose_range_of_cases r.glucose_value)
    have ihe := ih (fun x hx => h x (List.mem_cons_of_mem r hx))
    simp only [rangeCount_cons, List.length_cons]
    omega

theorem rangeCount_le_length (rs : List Reading) (cat : String) :
    rangeCount rs cat ≤ rs.length :=
  List.length_filter_le _ rs

theorem rangePercent_nonneg (rs : List Reading) (cat : String) : 0 ≤ rangePercent rs cat := by
  unfold rangePercent
  positivity

theorem rangePercent_le_100 (rs : List Reading) (cat : String) (hne : rs.length ≠ 0) :
    rangePercent rs cat ≤ 100 := by
  unfold rangePercent
  have hn : (0 : ℚ) < (rs.length : ℚ) := by
    exact_mod_cast Nat.pos_of_ne_zero hne
  rw [div_mul_eq_mul_div, div_le_iff₀ hn]
  have hc : ((rangeCount rs cat : ℚ)) ≤ (rs.length : ℚ) := by
    exact_mod_cast rangeCount_le_length rs cat
  linarith

/-- C10: on any non-empty processed series the five time-in-range percentages
are each within [0, 100] and sum to exactly 100, because every reading's
`glucose_range` is exactly one of the five categories. -/
theorem C10_tir_percentages (t : RawTable) (rs : List Reading) (stats : TirStats)
    (hok : clean_and_process t = Except.ok rs)
    (hstats : get_time_in_range_stats rs = some stats) :
    (0 ≤ stats.time_very_low_percent ∧ stats.time_very_low_percent ≤ 100) ∧
    (0 ≤ stats.time_low_percent ∧ stats.time_low_percent ≤ 100) ∧
    (0 ≤ stats.time_in_range_percent ∧ stats.time_in_range_percent ≤ 100) ∧
    (0 ≤ stats.time_high_percent ∧ stats.time_high_percent ≤ 100) ∧
    (0 ≤ stats.time_very_high_percent ∧ stats.time_very_high_percent ≤ 100) ∧
    stats.time_very_low_percent + stats.time_low_percent + stats.time_in_range_percent +
      stats.time_high_percent + stats.time_very_high_percent = 100 := by
  unfold get_time_in_range_stats at hstats
  split_ifs at hstats with hlen
  rw [Option.some.injEq] at hstats
  subst hstats
  have hranges : ∀ r ∈ rs, r.glucose_range = glucose_range_of r.glucose_value := by
    intro r hr
    obtain ⟨raw, -, -, -, hrange⟩ := clean_and_process_row_origin t rs hok r hr
    exact hrange
  have hpart := rangeCount_partition rs hranges
  have hn : (0 : ℚ) < (rs.length : ℚ) := by
    exact_mod_cast Nat.pos_of_ne_zero hlen
  refine ⟨⟨rangePercent_nonneg rs _, rangePercent_le_100 rs _ hlen⟩,
    ⟨rangePercent_nonneg rs _, rangePercent_le_100 rs _ hlen⟩,
    ⟨rangePercent_nonneg rs _, rangePercent_le_100 rs _ hlen⟩,
    ⟨rangePercent_nonneg rs _, rangePercent_le_100 rs _ hlen⟩,
    ⟨rangePercent_nonneg rs _, rangePercent_le_100 rs _ hlen⟩, ?_⟩
  have hq : ((rangeCount rs "very_low" : ℚ) + (rangeCount rs "low" : ℚ) +
      (rangeCount rs "normal" : ℚ) + (rangeCount rs "high" : ℚ) +
      (rangeCount rs "very_high" : ℚ)) = (rs.length : ℚ) := by
    exact_mod_cast hpart
  simp only [rangePercent]
  field_simp
  linarith

/-- C10 witness: the statistics of the single-reading series from
`tableHistScan`, via `C10_tir_percentages`. -/
theorem C10_tir_percentages_witness :
    (0 ≤ statsHistScan.time_very_low_percent ∧ statsHistScan.time_very_low_percent ≤ 100) ∧
    (0 ≤ statsHistScan.time_low_percent ∧ statsHistScan.time_low_percent ≤ 100) ∧
    (0 ≤ statsHistScan.time_in_range_percent ∧ statsHistScan.time_in_range_percent ≤ 100) ∧
    (0 ≤ statsHistScan.time_high_percent ∧ statsHistScan.time_high_percent ≤ 100) ∧
    (0 ≤ statsHistScan.time_very_high_percent ∧ statsHistScan.time_very_high_percent ≤ 100) ∧
    statsHistScan.time_very_low_percent + statsHistScan.time_low_percent +
      statsHistScan.time_in_range_percent + statsHistScan.time_high_percent +
      statsHistScan.time_very_high_percent = 100 :=
  C10_tir_percentages tableHistScan [readingHistScan] statsHistScan rfl
    (by simp [get_time_in_range_stats, rangePercent, rangeCount, readingHistScan,
          statsHistScan, List.filter])

/-! ## Claim C4: alignment tolerance invariant -/

theorem backwardMatch_sound {tolSec : Int} {sgs : List GlucoseRow} {ts : Int} {g : GlucoseRow}
    (h : backwardMatch tolSec sgs ts = some g) :
    g ∈ sgs ∧ g.timestamp ≤ ts ∧ ts - g.timestamp ≤ tolSec := by
  unfold backwardMatch at h
  cases hL : (sgs.filter (fun g => g.timestamp ≤ ts)).getLast? with
  | none => rw [hL] at h; simp at h
  | some g0 =>
    rw [hL] at h
    simp only at h
    split_ifs at h with htol
    rw [Option.some.injEq] at h
    subst h
    have hm := mem_of_getLast?_eq hL
    rw [List.mem_filter] at hm
    exact ⟨hm.1, by exact_mod_cast of_decide_eq_true hm.2, htol⟩

theorem forwardMatch_sound {tolSec : Int} {sgs : List GlucoseRow} {ts : Int} {g : GlucoseRow}
    (h : forwardMatch tolSec sgs ts = some g) :
    g ∈ sgs ∧ ts ≤ g.timestamp ∧ g.timestamp - ts ≤ tolSec := by
  unfold forwardMatch at h
  cases hL : (sgs.filter (fun g => ts ≤ g.timestamp)).head? with
  | none => rw [hL] at h; simp at h
  | some g0 =>
    rw [hL] at h
    simp only at h
    split_ifs at h with htol
    rw [Option.some.injEq] at h
    subst h
    have hm := mem_of_head?_eq hL
    rw [List.mem_filter] at hm
    exact ⟨hm.1, by exact_mod_cast of_decide_eq_true hm.2, htol⟩

theorem matchNearest_sound {tolSec : Int} {sgs : List GlucoseRow} {ts : Int} {g : GlucoseRow}
    (h : matchNearest tolSec sgs ts = some g) :
    g ∈ sgs ∧ |ts - g.timestamp| ≤ tolSec := by
  unfold matchNearest at h
  cases hb : backwardMatch tolSec sgs ts with
  | some b =>
    cases hf : forwardMatch tolSec sgs ts with
    | some f =>
      rw [hb, hf] at h
      obtain ⟨hbm, hble, hbtol⟩ := backwardMatch_sound hb
      obtain ⟨hfm, hfle, hftol⟩ := forwardMatch_sound hf
      simp only at h
      split_ifs at h with hcmp <;> rw [Option.some.injEq] at h <;> subst h
      · exact ⟨hbm, by rw [abs_of_nonneg (by omega)]; omega⟩
      · exact ⟨hfm, by rw [abs_of_nonpos (by omega)]; omega⟩
    | none =>
      rw [hb, hf] at h
      rw [Option.some.injEq] at h
      subst h
      obtain ⟨hbm, hble, hbtol⟩ := backwardMatch_sound hb
      exact ⟨hbm, by rw [abs_of_nonneg (by omega)]; omega⟩
  | none =>
    cases hf : forwardMatch tolSec sgs ts with
    | some f =>
      rw [hb, hf] at h
      rw [Option.some.injEq] at h
      subst h
      obtain ⟨hfm, hfle, hftol⟩ := forwardMatch_sound hf
      exact ⟨hfm, by rw [abs_of_nonpos (by omega)]; omega⟩
    | none => rw [hb, hf] at h; simp at h

/-- Every row of `alignCore` comes from some (sorted) health row matched to a
glucose row within `60 * tolMin` seconds, with
`time_diff_minutes = (health - glucose) / 60`. -/
theorem mem_alignCore {tolMin : Int} {hs : List HealthRow} {gs : List GlucoseRow}
    {r : AlignedRow} (hr : r ∈ alignCore tolMin hs gs) :
    ∃ h ∈ hs, ∃ g ∈ gs,
      matchNearest (60 * tolMin) (sortLe (fun a b => a.timestamp ≤ b.timestamp) gs)
        h.startDate = some g ∧
      r = { health_timestamp := h.startDate, glucose_timestamp := g.timestamp,
            time_diff_minutes := ((h.startDate - g.timestamp : Int) : ℚ) / 60,
            health := h, glucose := g } := by
  unfold alignCore at hr
  rw [List.mem_filterMap] at hr
  obtain ⟨h, hh, hmap⟩ := hr
  rw [mem_sortLe] at hh
  cases hm : matchNearest (60 * tolMin) (sortLe (fun a b => a.timestamp ≤ b.timestamp) gs)
      h.startDate with
  | none => rw [hm] at hmap; simp at hmap
  | some g =>
    rw [hm] at hmap
    rw [Option.map_some', Option.some.injEq] at hmap
    have hg : g ∈ gs := by
      have := (matchNearest_sound hm).1
      rw [mem_sortLe] at this
      exact this
    exact ⟨h, hh, g, hg, hm, hmap.symm⟩

/-- C4: every aligned record satisfies `|time_diff_minutes| ≤ tolerance`, and
a health record with no glucose reading within tolerance produces no output
row at all. -/
theorem C4_within_tolerance (tolMin : Int) (hs : List HealthRow) (gs : List GlucoseRow) :
    (∀ r ∈ alignCore tolMin hs gs, |r.time_diff_minutes| ≤ (tolMin : ℚ)) ∧
    (∀ h ∈ hs, (∀ g ∈ gs, 60 * tolMin < |h.startDate - g.timestamp|) →
      ∀ r ∈ alignCore tolMin hs gs, r.health_timestamp ≠ h.startDate) := by
  constructor
  · intro r hr
    obtain ⟨h, -, g, -, hm, rfl⟩ := mem_alignCore hr
    have hbound : |h.startDate - g.timestamp| ≤ 60 * tolMin := (matchNearest_sound hm).2
    simp only
    rw [abs_div]
    rw [div_le_iff₀ (by norm_num : (0 : ℚ) < |(60 : ℚ)|)]
    have hcast : |((h.startDate - g.timestamp : Int) : ℚ)| ≤ ((60 * tolMin : Int) : ℚ) := by
      rw [← Int.cast_abs]
      exact_mod_cast hbound
    have h60 : |(60 : ℚ)| = 60 := by norm_num
    rw [h60]
    push_cast at hcast ⊢
    linarith
  · intro h hh hfar r hr heq
    obtain ⟨h2, -, g, hg, hm, rfl⟩ := mem_alignCore hr
    simp only at heq
    rw [heq] at hm
    have hbound : |h.startDate - g.timestamp| ≤ 60 * tolMin := (matchNearest_sound hm).2
    have := hfar g hg
    omega

/-- C4 witness: the single aligned record of a concrete run lies within the
15-minute tolerance, via `C4_within_tolerance`. -/
theorem C4_within_tolerance_witness :
    |alignedAt600.time_diff_minutes| ≤ ((15 : Int) : ℚ) :=
  (C4_within_tolerance 15 [hrAt600] [grAt300]).1 alignedAt600
    (by rw [show alignCore 15 [hrAt600] [grAt300] = [alignedAt600] from rfl]
        exact List.mem_singleton.mpr rfl)

/-! ## Claim C5: equidistant tie-break -/

theorem pairwise_combine {R S T : α → α → Prop} (h : ∀ a b, R a b → S a b → T a b) :
    ∀ {l : List α}, l.Pairwise R → l.Pairwise S → l.Pairwise T := by
  intro l hR hS
  induction l with
  | nil => exact List.Pairwise.nil
  | cons x xs ih =>
    rw [List.pairwise_cons] at hR hS ⊢
    exact ⟨fun y hy => h x y (hR.1 y hy) (hS.1 y hy), ih hR.2 hS.2⟩

/-- Sorting a glucose frame with pairwise-distinct timestamps yields a frame
strictly increasing in timestamp. -/
theorem sorted_lt_glucose (gs : List GlucoseRow)
    (hdist : gs.Pairwise (fun a b => a.timestamp ≠ b.timestamp)) :
    (sortLe (fun a b => a.timestamp ≤ b.timestamp) gs).Pairwise
      (fun a b => a.timestamp < b.timestamp) := by
  have htot : ∀ a b : GlucoseRow,
      (decide (a.timestamp ≤ b.timestamp)) = true ∨
      (decide (b.timestamp ≤ a.timestamp)) = true := by
    intro a b
    rcases Int.le_total a.timestamp b.timestamp with h | h
    · exact Or.inl (decide_eq_true h)
    · exact Or.inr (decide_eq_true h)
  have htrans : ∀ a b c : GlucoseRow,
      decide (a.timestamp ≤ b.timestamp) = true →
      decide (b.timestamp ≤ c.timestamp) = true →
      decide (a.timestamp ≤ c.timestamp) = true := by
    intro a b c h1 h2
    exact decide_eq_true (le_trans (of_decide_eq_true h1) (of_decide_eq_true h2))
  have hle := pairwise_sortLe _ htot htrans gs
  have hne : (sortLe (fun a b => a.timestamp ≤ b.timestamp) gs).Pairwise
      (fun a b => a.timestamp ≠ b.timestamp) :=
    ((perm_sortLe _ gs).pairwise_iff (fun h => h.symm)).mpr hdist
  exact pairwise_combine
    (fun a b h1 h2 => lt_of_le_of_ne (of_decide_eq_true h1) h2) hle hne

theorem exists_getLast? : ∀ (l : List α), l ≠ [] → ∃ b, l.getLast? = some b
  | [], h => absurd rfl h
  | [x], _ => ⟨x, rfl⟩
  | x :: y :: ys, _ => by
    rw [List.getLast?_cons_cons]
    exact exists_getLast? (y :: ys) (by simp)

/-- On a strictly increasing glucose frame, a health timestamp with an
equidistant earlier reading `g1` and later reading `g2`, both nearest and
within tolerance, is matched to the earlier reading `g1`. -/
theorem matchNearest_tie (tolSec : Int) (sgs : List GlucoseRow) (ts : Int)
    (g1 g2 : GlucoseRow)
    (hsorted : sgs.Pairwise (fun a b => a.timestamp < b.timestamp))
    (hg1 : g1 ∈ sgs) (hg2 : g2 ∈ sgs)
    (heq : ts - g1.timestamp = g2.timestamp - ts)
    (hpos : 0 < ts - g1.timestamp)
    (htol : ts - g1.timestamp ≤ tolSec)
    (hnear : ∀ g ∈ sgs, ts - g1.timestamp ≤ |ts - g.timestamp|) :
    matchNearest tolSec sgs ts = some g1 := by
  have hg1f : g1 ∈ sgs.filter (fun g => g.timestamp ≤ ts) := by
    rw [List.mem_filter]
    refine ⟨hg1, decide_eq_true ?_⟩
    omega
  have hbsorted : (sgs.filter (fun g => g.timestamp ≤ ts)).Pairwise
      (fun a b => a.timestamp < b.timestamp) :=
    hsorted.sublist (List.filter_sublist _)
  obtain ⟨b, hb⟩ := exists_getLast? _ (List.ne_nil_of_mem hg1f)
  have hbmemf := mem_of_getLast?_eq hb
  have hbmem : b ∈ sgs := (List.mem_filter.mp hbmemf).1
  have hble : b.timestamp ≤ ts := of_decide_eq_true (List.mem_filter.mp hbmemf).2
  have hbeq : b = g1 := by
    rcases getLast?_max hbsorted hb g1 hg1f with h | h
    · exact h.symm
    · exfalso
      have hnb := hnear b hbmem
      rw [abs_of_nonneg (by omega)] at hnb
      omega
  subst hbeq
  have hB : backwardMatch tolSec sgs ts = some b := by
    unfold backwardMatch
    rw [hb]
    simp only
    rw [if_pos htol]
  have hg2f : g2 ∈ sgs.filter (fun g => ts ≤ g.timestamp) := by
    rw [List.mem_filter]
    refine ⟨hg2, decide_eq_true ?_⟩
    omega
  have hfsorted : (sgs.filter (fun g => ts ≤ g.timestamp)).Pairwise
      (fun a b => a.timestamp < b.timestamp) :=
    hsorted.sublist (List.filter_sublist _)
  obtain ⟨f, hf⟩ : ∃ f, (sgs.filter (fun g => ts ≤ g.timestamp)).head? = some f := by
    cases hF : sgs.filter (fun g => ts ≤ g.timestamp) with
    | nil => rw [hF] at hg2f; simp at hg2f
    | cons x xs => exact ⟨x, rfl⟩
  have hfmemf := mem_of_head?_eq hf
  have hfmem : f ∈ sgs := (List.mem_filter.mp hfmemf).1
  have hfge : ts ≤ f.timestamp := of_decide_eq_true (List.mem_filter.mp hfmemf).2
  have hfle2 : f.timestamp ≤ g2.timestamp := by
    rcases head?_min hfsorted hf g2 hg2f with h | h
    · rw [h]
    · omega
  have hfd : f.timestamp - ts = ts - b.timestamp := by
    have hnf := hnear f hfmem
    rw [abs_of_nonpos (by omega)] at hnf
    omega
  have hF : forwardMatch tolSec sgs ts = some f := by
    unfold forwardMatch
    rw [hf]
    simp only
    rw [if_pos (by omega)]
  unfold matchNearest
  rw [hB, hF]
  simp only
  rw [if_pos (by omega)]

/-- C5: when a health record has two glucose readings (with distinct
timestamps, as after de-duplication) at exactly equal absolute distance,
both nearest and within tolerance, the aligner matches it to the earlier of
the two; and every output row for that health timestamp carries the earlier
reading. -/
theorem C5_tie_matches_earlier (tolMin : Int) (hs : List HealthRow) (gs : List GlucoseRow)
    (h : HealthRow) (g1 g2 : GlucoseRow)
    (hdist : gs.Pairwise (fun a b => a.timestamp ≠ b.timestamp))
    (hh : h ∈ hs) (hg1 : g1 ∈ gs) (hg2 : g2 ∈ gs)
    (heq : h.startDate - g1.timestamp = g2.timestamp - h.startDate)
    (hpos : 0 < h.startDate - g1.timestamp)
    (htol : h.startDate - g1.timestamp ≤ 60 * tolMin)
    (hnear : ∀ g ∈ gs, h.startDate - g1.timestamp ≤ |h.startDate - g.timestamp|) :
    (∃ r ∈ alignCore tolMin hs gs, r.health = h ∧ r.glucose = g1) ∧
    (∀ r ∈ alignCore tolMin hs gs, r.health_timestamp = h.startDate → r.glucose = g1) := by
  have hg1s : g1 ∈ sortLe (fun a b => a.timestamp ≤ b.timestamp) gs :=
    (mem_sortLe _ _ _).mpr hg1
  have hg2s : g2 ∈ sortLe (fun a b => a.timestamp ≤ b.timestamp) gs :=
    (mem_sortLe _ _ _).mpr hg2
  have hnears : ∀ g ∈ sortLe (fun a b => a.timestamp ≤ b.timestamp) gs,
      h.startDate - g1.timestamp ≤ |h.startDate - g.timestamp| := by
    intro g hg
    exact hnear g ((mem_sortLe _ _ _).mp hg)
  have hmatch := matchNearest_tie (60 * tolMin) _ h.startDate g1 g2
    (sorted_lt_glucose gs hdist) hg1s hg2s heq hpos htol hnears
  constructor
  · refine ⟨⟨h.startDate, g1.timestamp, ((h.startDate - g1.timestamp : Int) : ℚ) / 60,
      h, g1⟩, ?_, rfl, rfl⟩
    unfold alignCore
    rw [List.mem_filterMap]
    refine ⟨h, (mem_sortLe _ _ _).mpr hh, ?_⟩
    rw [hmatch]
    rfl
  · intro r hr hts
    obtain ⟨h2, -, g, -, hm, rfl⟩ := mem_alignCore hr
    simp only at hts
    rw [hts] at hm
    rw [hmatch] at hm
    rw [Option.some.injEq] at hm
    simp only
    exact hm.symm

/-- C5 witness: with readings 5 minutes before and 5 minutes after a health
record (both nearest, tolerance 15 minutes), the record is matched to the
earlier reading, via `C5_tie_matches_earlier`. -/
theorem C5_tie_matches_earlier_witness :
    (∃ r ∈ alignCore 15 [hrAt600] [grAt900, grAt300], r.health = hrAt600 ∧ r.glucose = grAt300) ∧
    (∀ r ∈ alignCore 15 [hrAt600] [grAt900, grAt300],
      r.health_timestamp = hrAt600.startDate → r.glucose = grAt300) :=
  C5_tie_matches_earlier 15 [hrAt600] [grAt900, grAt300] hrAt600 grAt300 grAt900
    (by decide) (by decide) (by decide) (by decide) (by decide) (by decide)
    (by decide) (by decide)

/-! ## Claim C7: categorical mode aggregation -/

theorem charListLe_refl : ∀ x : List Char, charListLe x x = true
  | [] => rfl
  | a :: as => by
    unfold charListLe
    rw [if_neg (lt_irrefl _), if_neg (lt_irrefl _)]
    exact charListLe_refl as

theorem charListLe_total : ∀ x y : List Char, charListLe x y = true ∨ charListLe y x = true
  | [], _ => Or.inl rfl
  | _ :: _, [] => Or.inr rfl
  | a :: as, b :: bs => by
    unfold charListLe
    rcases Nat.lt_trichotomy a.toNat b.toNat with h | h | h
    · left
      rw [if_pos h]
    · have h1 : ¬ a.toNat < b.toNat := by omega
      have h2 : ¬ b.toNat < a.toNat := by omega
      simp only [h1, h2, if_false, ite_false, if_neg, not_false_eq_true]
      rcases charListLe_total as bs with hr | hr
      · exact Or.inl (by simp [h1, h2, hr])
      · exact Or.inr (by simp [h1, h2, hr])
    · right
      rw [if_pos h]

theorem charListLe_trans : ∀ x y z : List Char,
    charListLe x y = true → charListLe y z = true → charListLe x z = true
  | [], _, _, _, _ => rfl
  | _ :: _, [], _, h1, _ => by simp [charListLe] at h1
  | _ :: _, _ :: _, [], _, h2 => by simp [charListLe] at h2
  | a :: as, b :: bs, c :: cs, h1, h2 => by
    unfold charListLe at h1 h2 ⊢
    by_cases hab : a.toNat < b.toNat
    · by_cases hbc : b.toNat < c.toNat
      · rw [if_pos (by omega)]
      · rw [if_neg hbc] at h2
        by_cases hcb : c.toNat < b.toNat
        · rw [if_pos hcb] at h2
          exact absurd h2 (by simp)
        · rw [if_pos (by omega)]
    · rw [if_neg hab] at h1
      by_cases hba : b.toNat < a.toNat
      · rw [if_pos hba] at h1
        exact absurd h1 (by simp)
      · rw [if_neg hba] at h1
        by_cases hbc : b.toNat < c.toNat
        · rw [if_pos (by omega)]
        · rw [if_neg hbc] at h2
          by_cases hcb : c.toNat < b.toNat
          · rw [if_pos hcb] at h2
            exact absurd h2 (by simp)
          · rw [if_neg hcb] at h2
            rw [if_neg (by omega), if_neg (by omega)]
            exact charListLe_trans as bs cs h1 h2

theorem strLe_refl (a : String) : strLe a a = true := charListLe_refl a.data

theorem strLe_total (a b : String) : strLe a b = true ∨ strLe b a = true :=
  charListLe_total a.data b.data

theorem strLe_trans (a b c : String) :
    strLe a b = true → strLe b c = true → strLe a c = true :=
  charListLe_trans a.data b.data c.data

/-- C7 counterexample: the claim states ties for most frequent are broken by
the first-encountered value in window order.  With window types `["b", "a"]`
(a tie, `"b"` first), the aggregated mode is `"a"`: `Series.mode()` returns
the tied values sorted ascending and `iloc[0]` takes the least. -/
theorem C7_mode_tie_counterexample :
    (create_time_windows 60 [alignedB, alignedA]).map WindowAgg.type_mode = [some "a"] ∧
    [alignedB, alignedA].map (fun r => r.health.type) = ["b", "a"] ∧
    countStr ["b", "a"] "b" = countStr ["b", "a"] "a" ∧
    some "a" ≠ (some "b" : Option String) := by
  refine ⟨?_, by decide, by decide, by decide⟩
  rw [show create_time_windows 60 [alignedB, alignedA] =
    [mkWindow 60 [alignedB, alignedA] 0] from rfl]
  rw [List.map_singleton]
  rw [show (mkWindow 60 [alignedB, alignedA] 0).type_mode = some "a" from by decide]

theorem le_foldr_max {x : ℕ} : ∀ {xs : List ℕ}, x ∈ xs → x ≤ xs.foldr max 0 := by
  intro xs hx
  induction xs with
  | nil => simp at hx
  | cons y ys ih =>
    rcases List.mem_cons.mp hx with rfl | h2
    · exact le_max_left _ _
    · exact le_trans (ih h2) (le_max_right _ _)

theorem foldr_max_mem : ∀ (xs : List ℕ), xs.foldr max 0 = 0 ∨ xs.foldr max 0 ∈ xs
  | [] => Or.inl rfl
  | y :: ys => by
    rcases max_choice y (ys.foldr max 0) with h | h
    · exact Or.inr (by rw [List.foldr_cons, h]; exact List.mem_cons_self _ _)
    · rcases foldr_max_mem ys with h2 | h2
      · rw [List.foldr_cons, h, h2]
        exact Or.inl rfl
      · exact Or.inr (by rw [List.foldr_cons, h]; exact List.mem_cons_of_mem y h2)

theorem countStr_pos_of_mem {v : String} {l : List String} (h : v ∈ l) : 0 < countStr l v := by
  unfold countStr
  have : v ∈ l.filter (fun x => x = v) := by
    rw [List.mem_filter]
    exact ⟨h, by simp⟩
  exact List.length_pos.mpr (List.ne_nil_of_mem this)

theorem countStr_le_maxCountStr {v : String} {l : List String} (h : v ∈ l) :
    countStr l v ≤ maxCountStr l :=
  le_foldr_max (List.mem_map_of_mem (countStr l) (List.mem_dedup.mpr h))

theorem modeCandidates_ne_nil {l : List String} (hne : l ≠ []) : modeCandidates l ≠ [] := by
  obtain ⟨v0, hv0⟩ := List.exists_mem_of_ne_nil l hne
  have hpos : 0 < countStr l v0 := countStr_pos_of_mem hv0
  have hmaxpos : 0 < maxCountStr l := lt_of_lt_of_le hpos (countStr_le_maxCountStr hv0)
  rcases foldr_max_mem ((l.dedup).map (countStr l)) with h | h
  · rw [maxCountStr] at hmaxpos
    omega
  · rw [List.mem_map] at h
    obtain ⟨v, hvd, hvc⟩ := h
    have : v ∈ modeCandidates l := by
      rw [modeCandidates, List.mem_filter]
      exact ⟨hvd, decide_eq_true hvc⟩
    exact List.ne_nil_of_mem this

/-- `seriesMode` on a non-empty series returns a mode in the pandas sense:
a most frequent value, least in sort order among the tied ones. -/
theorem seriesMode_spec (l : List String) (hne : l ≠ []) :
    ∃ m, seriesMode l = some m ∧ isModeOf m l := by
  have hcne := modeCandidates_ne_nil hne
  obtain ⟨m, hm⟩ : ∃ m, (sortLe strLe (modeCandidates l)).head? = some m := by
    cases hS : sortLe strLe (modeCandidates l) with
    | nil =>
      exfalso
      have h2 := perm_sortLe strLe (modeCandidates l)
      rw [hS] at h2
      exact hcne h2.symm.eq_nil
    | cons x xs => exact ⟨x, rfl⟩
  have hmc : m ∈ modeCandidates l := (mem_sortLe _ _ _).mp (mem_of_head?_eq hm)
  rw [modeCandidates, List.mem_filter] at hmc
  have hmd : m ∈ l := List.mem_dedup.mp hmc.1
  have hmcount : countStr l m = maxCountStr l := of_decide_eq_true hmc.2
  refine ⟨m, hm, hmd, ?_, ?_⟩
  · intro v hv
    rw [hmcount]
    exact countStr_le_maxCountStr hv
  · intro v hv hvc
    have hvcand : v ∈ modeCandidates l := by
      rw [modeCandidates, List.mem_filter]
      exact ⟨List.mem_dedup.mpr hv, decide_eq_true (by rw [hvc, hmcount])⟩
    have hvins := (mem_sortLe strLe (modeCandidates l) v).mpr hvcand
    have hsorted := pairwise_sortLe strLe (fun a b => strLe_total a b)
      (fun a b c => strLe_trans a b c) (modeCandidates l)
    rcases head?_min hsorted hm v hvins with rfl | h
    · exact strLe_refl _
    · exact h

/-- Windows materialised by `create_time_windows` are exactly the non-empty
buckets. -/
theorem mem_windowKeys {winMin : Int} {rows : List AlignedRow} {k : Int}
    (hk : k ∈ windowKeys winMin rows) : windowRows winMin rows k ≠ [] := by
  unfold windowKeys at hk
  rw [mem_sortLe] at hk
  rw [List.mem_dedup, List.mem_map] at hk
  obtain ⟨r, hr, hkey⟩ := hk
  have : r ∈ windowRows winMin rows k := by
    rw [windowRows, List.mem_filter]
    exact ⟨hr, decide_eq_true hkey⟩
  exact List.ne_nil_of_mem this

/-- C7 amended: for every emitted window and each of the four categorical
fields, the aggregated value is a most frequent value of that field among the
window's rows; ties are broken by taking the least value in sort order (the
behaviour of `Series.mode().iloc[0]`), not the first-encountered one. -/
theorem C7_mode_least_of_most_frequent (winMin : Int) (rows : List AlignedRow) :
    ∀ w ∈ create_time_windows winMin rows, ∃ k ∈ windowKeys winMin rows,
      w = mkWindow winMin rows k ∧
      (∃ m, w.type_mode = some m ∧
        isModeOf m ((windowRows winMin rows k).map (fun r => r.health.type))) ∧
      (∃ m, w.glucose_range_mode = some m ∧
        isModeOf m ((windowRows winMin rows k).map (fun r => r.glucose.glucose_range))) ∧
      (∃ m, w.glucose_trend_mode = some m ∧
        isModeOf m ((windowRows winMin rows k).map (fun r => r.glucose.glucose_trend))) ∧
      (∃ m, w.sourceName_mode = some m ∧
        isModeOf m ((windowRows winMin rows k).map (fun r => r.health.sourceName))) := by
  intro w hw
  unfold create_time_windows at hw
  rw [List.mem_map] at hw
  obtain ⟨k, hk, hwk⟩ := hw
  have hwr := mem_windowKeys hk
  subst hwk
  refine ⟨k, hk, rfl, ?_, ?_, ?_, ?_⟩ <;>
    exact seriesMode_spec _ (fun hmap => hwr (List.map_eq_nil_iff.mp hmap))

/-- C7 witness: the amended mode property on the concrete single-window run
`[alignedB, alignedA]`, via `C7_mode_least_of_most_frequent`. -/
theorem C7_mode_least_witness :
    ∃ k ∈ windowKeys 60 [alignedB, alignedA],
      windowBA = mkWindow 60 [alignedB, alignedA] k ∧
      (∃ m, windowBA.type_mode = some m ∧
        isModeOf m ((windowRows 60 [alignedB, alignedA] k).map (fun r => r.health.type))) ∧
      (∃ m, windowBA.glucose_range_mode = some m ∧
        isModeOf m ((windowRows 60 [alignedB, alignedA] k).map
          (fun r => r.glucose.glucose_range))) ∧
      (∃ m, windowBA.glucose_trend_mode = some m ∧
        isModeOf m ((windowRows 60 [alignedB, alignedA] k).map
          (fun r => r.glucose.glucose_trend))) ∧
      (∃ m, windowBA.sourceName_mode = some m ∧
        isModeOf m ((windowRows 60 [alignedB, alignedA] k).map
          (fun r => r.health.sourceName))) :=
  C7_mode_least_of_most_frequent 60 [alignedB, alignedA] windowBA
    (by rw [show create_time_windows 60 [alignedB, alignedA] =
          [mkWindow 60 [alignedB, alignedA] 0] from rfl]
        exact List.mem_singleton.mpr rfl)

/-- C6 witness: the amended equivalence applied to a concrete unloaded state,
via `C6_error_iff_unloaded`. -/
theorem C6_error_iff_unloaded_witness :
    ∃ e, align_timestamps { apple_health_data := none, glucose_data := some [] } 15 =
      Except.error e :=
  (C6_error_iff_unloaded { apple_health_data := none, glucose_data := some [] } 15).mpr
    (Or.inl rfl)
